import Mathlib

/-!
Verification of the LeichtKV key-value store (packages btree, kvstore,
freelist, utils) against its specification.

The embedding is byte-level: a disk page is a `List Nat` of byte values,
multi-byte integers are read and written little-endian exactly as
`encoding/binary` does, and every uint16 operation of the source is
performed modulo 2^16.  Functions keep the source names.  Panics of
`utils.Assert` inside fallible operations are modelled as `none` (or a
dedicated failure constructor); the byte accessors themselves are total,
with out-of-range reads defaulting to 0 — every concrete evaluation below
stays in bounds, where they agree with the Go code.
-/

set_option maxRecDepth 100000

/-- A byte buffer: each element is one byte value (kept < 256 by all writes). -/
abbrev Bytes := List Nat

def getByte (d : Bytes) (i : Nat) : Nat := d.getD i 0

def setByte (d : Bytes) (i v : Nat) : Bytes := d.set i (v % 256)

/-- `binary.LittleEndian.Uint16`. -/
def readU16 (d : Bytes) (pos : Nat) : Nat :=
  getByte d pos + 256 * getByte d (pos + 1)

/-- `binary.LittleEndian.PutUint16` (stores `v mod 2^16`). -/
def writeU16 (d : Bytes) (pos v : Nat) : Bytes :=
  setByte (setByte d pos v) (pos + 1) (v / 256)

/-- `binary.LittleEndian.Uint64`. -/
def readU64 (d : Bytes) (pos : Nat) : Nat :=
  getByte d pos +
    256 * (getByte d (pos + 1) +
      256 * (getByte d (pos + 2) +
        256 * (getByte d (pos + 3) +
          256 * (getByte d (pos + 4) +
            256 * (getByte d (pos + 5) +
              256 * (getByte d (pos + 6) +
                256 * getByte d (pos + 7)))))))

/-- `binary.LittleEndian.PutUint64` (stores `v mod 2^64`). -/
def writeU64 (d : Bytes) (pos v : Nat) : Bytes :=
  setByte (setByte (setByte (setByte (setByte (setByte (setByte (setByte
    d pos v) (pos + 1) (v / 256)) (pos + 2) (v / 256 ^ 2)) (pos + 3) (v / 256 ^ 3))
    (pos + 4) (v / 256 ^ 4)) (pos + 5) (v / 256 ^ 5)) (pos + 6) (v / 256 ^ 6))
    (pos + 7) (v / 256 ^ 7)

/-- Reduction of a value to Go `uint16` range. -/
def m16 (x : Nat) : Nat := x % 65536

/-- Go `uint16` subtraction (wraps on underflow). -/
def goSub16 (a b : Nat) : Nat := (a % 65536 + 65536 - b % 65536) % 65536

/-- Go `uint16` addition (wraps on overflow). -/
def goAdd16 (a b : Nat) : Nat := (a + b) % 65536

/-- Go `bytes.Compare`: lexicographic order on unsigned bytes,
shorter prefix first. -/
def bytesCompare : Bytes → Bytes → Int
  | [], [] => 0
  | [], _ :: _ => -1
  | _ :: _, [] => 1
  | a :: as, b :: bs =>
    if a < b then -1 else if b < a then 1 else bytesCompare as bs

/-- Go `copy(dst[dstPos:], src)`: write the source bytes one by one from
`dstPos` on.  `List.set` ignores out-of-range writes, which is exactly the
Go `copy` builtin stopping at the destination capacity. -/
def copyBytes : Bytes → Nat → Bytes → Bytes
  | dst, _, [] => dst
  | dst, dstPos, v :: vs => copyBytes (dst.set dstPos v) (dstPos + 1) vs

/-- `btree.BNode`: the content of one disk page. -/
structure BNode where
  Data : Bytes
deriving DecidableEq

def BNODE_NODE : Nat := 1
def BNODE_LEAF : Nat := 2
def HEADER : Nat := 4
def BTREE_PAGE_SIZE : Nat := 4096
def BTREE_MAX_KEY_SIZE : Nat := 1000
def BTREE_MAX_VALUE_SIZE : Nat := 3000

/-- `BNode.btype`: first 2 header bytes. -/
def BNode.btype (node : BNode) : Nat := readU16 node.Data 0

/-- `BNode.nkeys`: header bytes 2..3. -/
def BNode.nkeys (node : BNode) : Nat := readU16 node.Data 2

/-- `BNode.setHeader`. -/
def BNode.setHeader (node : BNode) (btype nkeys : Nat) : BNode :=
  ⟨writeU16 (writeU16 node.Data 0 btype) 2 nkeys⟩

/-- `BNode.GetPtr`: the idx-th child pointer (source asserts `idx < nkeys`). -/
def BNode.GetPtr (node : BNode) (idx : Nat) : Nat :=
  readU64 node.Data (m16 (HEADER + 8 * idx))

/-- `BNode.setPtr`. -/
def BNode.setPtr (node : BNode) (idx val : Nat) : BNode :=
  ⟨writeU64 node.Data (m16 (HEADER + 8 * idx)) val⟩

/-- `offsetPos` (source asserts `1 ≤ idx ≤ nkeys`; `idx-1` is uint16). -/
def offsetPos (node : BNode) (idx : Nat) : Nat :=
  m16 (HEADER + 8 * node.nkeys + 2 * goSub16 idx 1)

/-- `BNode.GetOffset`. -/
def BNode.GetOffset (node : BNode) (idx : Nat) : Nat :=
  if idx = 0 then 0 else readU16 node.Data (offsetPos node idx)

/-- `BNode.setOffset`. -/
def BNode.setOffset (node : BNode) (idx offset : Nat) : BNode :=
  ⟨writeU16 node.Data (offsetPos node idx) offset⟩

/-- `BNode.kvPos` (uint16 arithmetic). -/
def BNode.kvPos (node : BNode) (idx : Nat) : Nat :=
  m16 (HEADER + 8 * node.nkeys + 2 * node.nkeys + node.GetOffset idx)

/-- `BNode.GetKey`.  NOTE: the source reads the key bytes from
`node.Data[pos+1:][:klen]`, i.e. starting one byte after the klen field
(the KV layout writes the key at `pos+4`); the embedding reproduces that
read exactly. -/
def BNode.GetKey (node : BNode) (idx : Nat) : Bytes :=
  let pos := node.kvPos idx
  let klen := readU16 node.Data pos
  (node.Data.drop (pos + 1)).take klen

/-- `BNode.GetVal`. -/
def BNode.GetVal (node : BNode) (idx : Nat) : Bytes :=
  let pos := node.kvPos idx
  let klen := readU16 node.Data pos
  let vlen := readU16 node.Data (pos + 2)
  (node.Data.drop (m16 (pos + 4 + klen))).take vlen

/-- `BNode.nbytes`: encoded node size in bytes. -/
def BNode.nbytes (node : BNode) : Nat := node.kvPos node.nkeys

/-- The loop of `noDelookupLE`: index `i`, current `found`, running while
`i < nkeys`; `cmp ≤ 0` updates `found`, `cmp ≥ 0` breaks. -/
def lookupGo (node : BNode) (key : Bytes) : Nat → Nat → Nat → Nat
  | 0, _, found => found
  | fuel + 1, i, found =>
    if i < node.nkeys then
      let c := bytesCompare (node.GetKey i) key
      let found2 := if c ≤ 0 then i else found
      if 0 ≤ c then found2 else lookupGo node key fuel (i + 1) found2
    else found

/-- `noDelookupLE`: linear scan from index 1. -/
def noDelookupLE (node : BNode) (key : Bytes) : Nat :=
  lookupGo node key node.nkeys 1 0

/-- The pointer-copy loop of `nodeAppendRange`.  NOTE: the source body is
`New.setPtr(dstNew+1, old.GetPtr(srcOld+1))` — the loop index `i` is unused,
so the same slot is written `n` times; the embedding reproduces this. -/
def copyPtrsLoop (old : BNode) (dstNew srcOld : Nat) : Nat → BNode → BNode
  | 0, New => New
  | n + 1, New => copyPtrsLoop old dstNew srcOld n (New.setPtr (dstNew + 1) (old.GetPtr (srcOld + 1)))

/-- The offset-copy loop of `nodeAppendRange`: for `i = 1..n`,
`New.setOffset(dstNew+i, dstBegin + old.GetOffset(srcOld+i) - srcBegin)`
(uint16 arithmetic). -/
def copyOffsetsLoop (old : BNode) (dstNew srcOld dstBegin srcBegin : Nat) :
    Nat → Nat → BNode → BNode
  | _, 0, New => New
  | i, n + 1, New =>
    let off := goSub16 (goAdd16 dstBegin (old.GetOffset (m16 (srcOld + i)))) srcBegin
    copyOffsetsLoop old dstNew srcOld dstBegin srcBegin (i + 1) n
      (New.setOffset (m16 (dstNew + i)) off)

/-- `nodeAppendRange`: copy entries `[srcOld, srcOld+n)` of `old` to
`[dstNew, dstNew+n)` of `New` (pointers, offsets, then raw KV bytes). -/
def nodeAppendRange (New old : BNode) (dstNew srcOld n : Nat) : BNode :=
  if n = 0 then New
  else
    let N1 := copyPtrsLoop old dstNew srcOld n New
    let dstBegin := N1.GetOffset dstNew
    let srcBegin := old.GetOffset srcOld
    let N2 := copyOffsetsLoop old dstNew srcOld dstBegin srcBegin 1 n N1
    let bg := old.kvPos srcOld
    let ed := old.kvPos (m16 (srcOld + n))
    let dstPos := N2.kvPos dstNew
    copyBytes N2.Data dstPos ((old.Data.drop bg).take (ed - bg)) |> BNode.mk

/-- `nodeAppendKV`: write one KV pair (and child pointer) at position `idx`. -/
def nodeAppendKV (New : BNode) (idx ptr : Nat) (key val : Bytes) : BNode :=
  let N1 := New.setPtr idx ptr
  let pos := N1.kvPos idx
  let d1 := writeU16 N1.Data pos key.length
  let d2 := writeU16 d1 (m16 (pos + 2)) val.length
  let d3 := copyBytes d2 (m16 (pos + 4)) key
  let kend := m16 (pos + 4 + m16 key.length)
  let d4 := copyBytes d3 kend val
  let N2 : BNode := ⟨d4⟩
  N2.setOffset (m16 (idx + 1)) (goAdd16 (N2.GetOffset idx) (goAdd16 4 (m16 (key.length + val.length))))

/-- `leafInsert`: new leaf with an extra entry at `idx` (nkeys grows by 1). -/
def leafInsert (New old : BNode) (idx : Nat) (key val : Bytes) : BNode :=
  let N1 := New.setHeader BNODE_LEAF (goAdd16 old.nkeys 1)
  let N2 := nodeAppendRange N1 old 0 0 idx
  let N3 := nodeAppendKV N2 idx 0 key val
  nodeAppendRange N3 old (m16 (idx + 1)) idx (goSub16 old.nkeys idx)

/-- `leafDelete`: new leaf with entry `idx` removed. -/
def leafDelete (New old : BNode) (idx : Nat) : BNode :=
  let N1 := New.setHeader BNODE_LEAF (goSub16 old.nkeys 1)
  let N2 := nodeAppendRange N1 old 0 0 idx
  nodeAppendRange N2 old idx (m16 (idx + 1)) (goSub16 old.nkeys (m16 (idx + 1)))

/-- `nodeMerge`: concatenate two nodes into one. -/
def nodeMerge (New left right : BNode) : BNode :=
  let N1 := New.setHeader left.btype (goAdd16 left.nkeys right.nkeys)
  let N2 := nodeAppendRange N1 left 0 0 left.nkeys
  nodeAppendRange N2 right left.nkeys 0 right.nkeys

/-- `nodeSplit2`: the source body is EMPTY (a stub) — left and right are
returned unchanged. -/
def nodeSplit2 (left right _old : BNode) : BNode × BNode := (left, right)

/-- `nodeSplit3`: split an oversized node into 1–3 page-sized nodes.
Because `nodeSplit2` is a stub, the 2- and 3-way results are the untouched
freshly allocated zero buffers. -/
def nodeSplit3 (old : BNode) : Nat × List BNode :=
  if old.nbytes ≤ BTREE_PAGE_SIZE then (1, [⟨old.Data.take BTREE_PAGE_SIZE⟩])
  else
    let left : BNode := ⟨List.replicate (2 * BTREE_PAGE_SIZE) 0⟩
    let right : BNode := ⟨List.replicate BTREE_PAGE_SIZE 0⟩
    let (left, right) := nodeSplit2 left right old
    if left.nbytes ≤ BTREE_PAGE_SIZE then (2, [⟨left.Data.take BTREE_PAGE_SIZE⟩, right])
    else
      let leftleft : BNode := ⟨List.replicate BTREE_PAGE_SIZE 0⟩
      let middle : BNode := ⟨List.replicate BTREE_PAGE_SIZE 0⟩
      let (leftleft, middle) := nodeSplit2 leftleft middle left
      -- source: utils.Assert(leftleft.nbytes() <= BTREE_PAGE_SIZE); holds here
      (3, [leftleft, middle, right])

/-- `nodeReplace2Kid`: the source body is EMPTY (a stub) — `New` is
returned unchanged. -/
def nodeReplace2Kid (New _node : BNode) (_u1 : Nat) (_u2 : Nat) (_b : Bytes) : BNode := New

/-- `shouldMerge`: decide whether the updated kid merges with a sibling.
`merged` is computed in Go uint16 arithmetic. -/
def shouldMerge (get : Nat → BNode) (node : BNode) (idx : Nat) (updated : BNode) :
    Int × BNode :=
  if BTREE_PAGE_SIZE / 4 < updated.nbytes then (0, ⟨[]⟩)
  else if 0 < idx ∧
      goSub16 (goAdd16 (get (node.GetPtr (idx - 1))).nbytes updated.nbytes) HEADER ≤ BTREE_PAGE_SIZE then
    (-1, get (node.GetPtr (idx - 1)))
  else if idx + 1 < node.nkeys ∧
      goSub16 (goAdd16 (get (node.GetPtr (idx + 1))).nbytes updated.nbytes) HEADER ≤ BTREE_PAGE_SIZE then
    (1, get (node.GetPtr (idx + 1)))
  else (0, ⟨[]⟩)

/-! ## Page callbacks

The `BTree` struct carries three callbacks `Get`, `New`, `Del`.  `Get` is a
pure page read; `New` allocates (in the kvstore implementation it returns
`flushed + len(temp)` and appends to `temp`); `Del` records a pointer.  The
model keeps `Get` as a function and logs every `New`/`Del` call. -/

/-- The read-only part of the `BTree` callbacks: the page store and the
base pointer returned by the next `New` (kvstore: `flushed + len(temp)`). -/
structure CB where
  get : Nat → BNode
  base : Nat

/-- The mutable log of callback invocations during one tree operation. -/
structure CBState where
  newLog : List BNode
  delLog : List Nat
deriving DecidableEq

def initCB : CBState := ⟨[], []⟩

/-- `tree.New(node)`: allocate a page, returning its pointer. -/
def cbNew (cb : CB) (s : CBState) (node : BNode) : Nat × CBState :=
  (cb.base + s.newLog.length, ⟨s.newLog ++ [node], s.delLog⟩)

/-- `tree.Del(ptr)`. -/
def cbDel (s : CBState) (p : Nat) : CBState := ⟨s.newLog, s.delLog ++ [p]⟩

/-- The kid loop shared by `nodeReplaceKidN` and root rebuilding in `Insert`:
`nodeAppendKV(New, pos+i, tree.New(kid), kid.GetKey(0), nil)`. -/
def replaceKidsLoop (cb : CB) : List BNode → Nat → BNode → CBState → BNode × CBState
  | [], _, New, s => (New, s)
  | k :: ks, pos, New, s =>
    let r := cbNew cb s k
    replaceKidsLoop cb ks (pos + 1) (nodeAppendKV New pos r.1 (k.GetKey 0) []) r.2

/-- `nodeReplaceKidN`: new internal node where entry `idx` is replaced by
the given kids. -/
def nodeReplaceKidN (cb : CB) (s : CBState) (New old : BNode) (idx : Nat)
    (kids : List BNode) : BNode × CBState :=
  let inc := kids.length
  let N1 := New.setHeader BNODE_NODE (goSub16 (goAdd16 old.nkeys inc) 1)
  let N2 := nodeAppendRange N1 old 0 0 idx
  let r := replaceKidsLoop cb kids idx N2 s
  (nodeAppendRange r.1 old (m16 (idx + inc)) (m16 (idx + 1)) (goSub16 old.nkeys (m16 (idx + 1))), r.2)

/-- Body of `nodeInsert`, with the recursive call abstracted (`rec` is
`treeInsert` at the remaining fuel).  `none` models recursion failure. -/
def nodeInsertF (cb : CB) (rec : CBState → BNode → Bytes → Bytes → Option (BNode × CBState))
    (s : CBState) (New node : BNode) (idx : Nat) (key val : Bytes) :
    Option (BNode × CBState) :=
  let kptr := node.GetPtr idx
  let knode := cb.get kptr
  let s1 := cbDel s kptr
  match rec s1 knode key val with
  | none => none
  | some (knode2, s2) =>
    let sp := nodeSplit3 knode2
    some (nodeReplaceKidN cb s2 New node idx sp.2)

/-- `treeInsert` (fuel-indexed; `none` models fuel exhaustion or the
`default: panic("bad node!")` branch). -/
def treeInsert (cb : CB) : Nat → CBState → BNode → Bytes → Bytes → Option (BNode × CBState)
  | 0, _, _, _, _ => none
  | fuel + 1, s, node, key, val =>
    let New : BNode := ⟨List.replicate (2 * BTREE_PAGE_SIZE) 0⟩
    let idx := noDelookupLE node key
    if node.btype = BNODE_LEAF then
      if key = node.GetKey idx then some (leafInsert New node idx key val, s)
      else some (leafInsert New node (idx + 1) key val, s)
    else if node.btype = BNODE_NODE then
      nodeInsertF cb (treeInsert cb fuel) s New node idx key val
    else none

/-- `nodeInsert` as in the source: it recurses through `treeInsert`. -/
def nodeInsert (cb : CB) (fuel : Nat) (s : CBState) (New node : BNode) (idx : Nat)
    (key val : Bytes) : Option (BNode × CBState) :=
  nodeInsertF cb (treeInsert cb fuel) s New node idx key val

/-- `(tree *BTree) Insert`: returns the new root pointer and the callback
log; `none` models an assertion failure or fuel exhaustion. -/
def BTreeInsert (cb : CB) (fuel root : Nat) (key val : Bytes) :
    Option (Nat × CBState) :=
  if key.length = 0 then none
  else if BTREE_MAX_KEY_SIZE < key.length then none
  else if BTREE_MAX_VALUE_SIZE < val.length then none
  else if root = 0 then
    let R0 : BNode := ⟨List.replicate BTREE_PAGE_SIZE 0⟩
    let R1 := R0.setHeader BNODE_LEAF 2
    let R2 := nodeAppendKV R1 0 0 [] []
    let R3 := nodeAppendKV R2 1 0 key val
    let r := cbNew cb initCB R3
    some r
  else
    let node := cb.get root
    let s1 := cbDel initCB root
    match treeInsert cb fuel s1 node key val with
    | none => none
    | some (node2, s2) =>
      let sp := nodeSplit3 node2
      if 1 < sp.1 then
        let R0 : BNode := ⟨List.replicate BTREE_PAGE_SIZE 0⟩
        let R1 := R0.setHeader BNODE_NODE sp.1
        let r := replaceKidsLoop cb sp.2 0 R1 s2
        some (cbNew cb r.2 r.1)
      else
        some (cbNew cb s2 (sp.2.getD 0 ⟨[]⟩))

/-- Body of `nodeDelete`, with the recursive call abstracted (`rec` is
`treeDelete` at the remaining fuel).  The `utils.Assert(updated.nkeys() > 0)`
panic is modelled as `none`. -/
def nodeDeleteF (cb : CB) (rec : CBState → BNode → Bytes → Option (BNode × CBState))
    (s : CBState) (node : BNode) (idx : Nat) (key : Bytes) :
    Option (BNode × CBState) :=
  let kptr := node.GetPtr idx
  match rec s (cb.get kptr) key with
  | none => none
  | some (updated, s1) =>
    if updated.Data.isEmpty then some (⟨[]⟩, s1)
    else
      let s2 := cbDel s1 kptr
      let New : BNode := ⟨List.replicate BTREE_PAGE_SIZE 0⟩
      let ms := shouldMerge cb.get node idx updated
      if ms.1 < 0 then
        let merged := nodeMerge ⟨List.replicate BTREE_PAGE_SIZE 0⟩ ms.2 updated
        let s3 := cbDel s2 (node.GetPtr (idx - 1))
        let r := cbNew cb s3 merged
        some (nodeReplace2Kid New node (idx - 1) r.1 (merged.GetKey 0), r.2)
      else if 0 < ms.1 then
        let merged := nodeMerge ⟨List.replicate BTREE_PAGE_SIZE 0⟩ updated ms.2
        let s3 := cbDel s2 (node.GetPtr (idx + 1))
        let r := cbNew cb s3 merged
        some (nodeReplace2Kid New node idx r.1 (merged.GetKey 0), r.2)
      else
        if 0 < updated.nkeys then
          some (nodeReplaceKidN cb s2 New node idx [updated])
        else none

/-- `treeDelete` (fuel-indexed).  An empty result node (`Data = []`) means
"key not found", exactly as `BNode{}` in the source. -/
def treeDelete (cb : CB) : Nat → CBState → BNode → Bytes → Option (BNode × CBState)
  | 0, _, _, _ => none
  | fuel + 1, s, node, key =>
    let idx := noDelookupLE node key
    if node.btype = BNODE_LEAF then
      if key = node.GetKey idx then
        some (leafDelete ⟨List.replicate BTREE_PAGE_SIZE 0⟩ node idx, s)
      else some (⟨[]⟩, s)
    else if node.btype = BNODE_NODE then
      nodeDeleteF cb (treeDelete cb fuel) s node idx key
    else none

/-- `nodeDelete` as in the source: it recurses through `treeDelete`. -/
def nodeDelete (cb : CB) (fuel : Nat) (s : CBState) (node : BNode) (idx : Nat)
    (key : Bytes) : Option (BNode × CBState) :=
  nodeDeleteF cb (treeDelete cb fuel) s node idx key

/-- `(tree *BTree) Delete`: returns (removed?, new root, callback log). -/
def BTreeDelete (cb : CB) (fuel root : Nat) (key : Bytes) :
    Option (Bool × Nat × CBState) :=
  if key.length = 0 then none
  else if BTREE_MAX_KEY_SIZE < key.length then none
  else if root = 0 then some (false, root, initCB)
  else
    match treeDelete cb fuel initCB (cb.get root) key with
    | none => none
    | some (updated, s1) =>
      if updated.Data.isEmpty then some (false, root, s1)
      else
        let s2 := cbDel s1 root
        if updated.btype = BNODE_NODE ∧ updated.nkeys = 1 then
          some (true, updated.GetPtr 0, s2)
        else
          let r := cbNew cb s2 updated
          some (true, r.1, r.2)

/-- Membership of a key in the tree, by the same descent the tree uses:
follow `noDelookupLE` to a leaf and compare there.  `none` models a
malformed node or fuel exhaustion. -/
def hasKey (cb : CB) : Nat → BNode → Bytes → Option Bool
  | 0, _, _ => none
  | fuel + 1, node, key =>
    let idx := noDelookupLE node key
    if node.btype = BNODE_LEAF then some (decide (key = node.GetKey idx))
    else if node.btype = BNODE_NODE then
      hasKey cb fuel (cb.get (node.GetPtr idx)) key
    else none

/-! ## Pager (kvstore.go)

`flushPages` is stateful I/O; it is embedded as a state transformer that
also emits the ordered trace of externally visible page-I/O events. -/

/-- One externally visible step of the commit path. -/
inductive PagerEv where
  | extendFileTo (npages : Nat)
  | extendMmapTo (npages : Nat)
  | copyPage (ptr : Nat)
  | fsync
  | advanceFlushed
  | masterWrite (root used : Nat)
deriving DecidableEq

/-- The pager state that `flushPages` touches. -/
structure PagerState where
  root : Nat
  flushed : Nat
  tempLen : Nat
deriving DecidableEq

/-- `writePages`: extend the file to `flushed + len(temp)` pages and copy
every temp page to its slot.  NOTE: the source never calls `extendMmap`
(the function exists in kvstore.go but has no caller). -/
def writePages (s : PagerState) : List PagerEv :=
  PagerEv.extendFileTo (s.flushed + s.tempLen) ::
    (List.range s.tempLen).map (fun i => PagerEv.copyPage (s.flushed + i))

/-- `syncPages`: fsync, then advance `flushed` and clear `temp`, then
`masterStore` (a positioned write of the master page with the current —
already advanced — `flushed`).  NOTE: the source does not fsync again
after `masterStore`. -/
def syncPages (s : PagerState) : PagerState × List PagerEv :=
  let s1 : PagerState := ⟨s.root, s.flushed + s.tempLen, 0⟩
  (s1, [PagerEv.fsync, PagerEv.advanceFlushed, PagerEv.masterWrite s.root s1.flushed])

/-- `flushPages = writePages; syncPages`. -/
def flushPages (s : PagerState) : PagerState × List PagerEv :=
  let evs := writePages s
  let r := syncPages s
  (r.1, evs ++ r.2)

/-- The commit sequence as the SPECIFICATION states it (steps (1)–(7) of
`commit()` in §4.1): extend file, ensure mmap coverage, copy temp pages,
fsync, master write, fsync again, and only then advance `flushed`. -/
def specCommitEvents (s : PagerState) : List PagerEv :=
  PagerEv.extendFileTo (s.flushed + s.tempLen) ::
    PagerEv.extendMmapTo (s.flushed + s.tempLen) ::
    (List.range s.tempLen).map (fun i => PagerEv.copyPage (s.flushed + i)) ++
    [PagerEv.fsync, PagerEv.masterWrite s.root (s.flushed + s.tempLen),
     PagerEv.fsync, PagerEv.advanceFlushed]

/-- `mmapInt` size logic: `none` models the error return (size not a
multiple of the page size) or the `utils.Assert(mmapSize < fi.Size())`
panic.  The `0 < size` guard in the loop is only for termination; the
call site passes 64 MiB. -/
def mmapLoop (fileSize : Nat) (size : Nat) : Nat :=
  if h : 0 < size ∧ size < fileSize then mmapLoop fileSize (size * 2) else size
termination_by fileSize - size
decreasing_by omega

def mmapInt (fileSize : Nat) : Option Nat :=
  if fileSize % BTREE_PAGE_SIZE ≠ 0 then none
  else if 64 * 1024 * 1024 < fileSize then some (mmapLoop fileSize (64 * 1024 * 1024))
  else none

/-- `DB_SIG = "BANKAI"` — the 6 ASCII bytes of the constant string. -/
def DB_SIG : Bytes := [66, 65, 78, 75, 65, 73]

/-- The 16-byte magic signature the specification describes:
`"BANKAI"` padded with 10 NUL bytes. -/
def specMagic16 : Bytes := DB_SIG ++ List.replicate 10 0

/-- `masterLoad`: `file` is the file size in bytes, `data` the first mmap
chunk.  On an empty file the root is left at its initial 0 and `flushed`
becomes 1.  `none` models the error returns ("Bad signature" /
"Bad master page."); `some (root, used)` the successful install. -/
def masterLoad (file : Nat) (data : Bytes) : Option (Nat × Nat) :=
  if file = 0 then some (0, 1)
  else
    let root := readU64 data 16
    let used := readU64 data 24
    if ¬ (DB_SIG = data.take 16) then none
    else
      let bad := ¬ (1 ≤ used ∧ used ≤ file / BTREE_PAGE_SIZE)
      let bad2 := bad ∨ ¬ (root < used)
      if bad2 then none else some (root, used)

/-- `masterStore`: the 32 bytes written at offset 0 (DB_SIG, then root,
then flushed, zero-padded to 32). -/
def masterStore (root flushed : Nat) : Bytes :=
  writeU64 (writeU64 (DB_SIG ++ List.replicate 26 0) 16 root) 24 flushed

/-! ## Free list (package freelist)

The accessor bodies (`Total`, `flnSize`, `flnNext`, `flnPtr`,
`flnSetptr`, `flnSetHeader`, `flnSetTotal`) are declared without bodies in
the source; they are modelled from the specification's FREE-node layout
(§3): btype at 0, size at 2, next at 4, total at 12, pointers at 20+8i. -/

def BNODE_FREE_LIST : Nat := 3
def FREE_LIST_HEADER : Nat := 4 + 8 + 8
def FREE_LIST_CAP : Nat := (BTREE_PAGE_SIZE - FREE_LIST_HEADER) / 8

/-- Modelled from the spec: `flnSize` — the number of pointers stored in
this FREE page (u16 at offset 2). -/
def flnSize (node : BNode) : Nat := readU16 node.Data 2

/-- Modelled from the spec: `flnNext` — pointer of the next free-list page
(u64 at offset 4), 0 at the end of the chain. -/
def flnNext (node : BNode) : Nat := readU64 node.Data 4

/-- Modelled from the spec: `flnPtr` — the idx-th stored pointer
(u64 at offset 20 + 8*idx). -/
def flnPtr (node : BNode) (idx : Nat) : Nat := readU64 node.Data (20 + 8 * idx)

/-- Modelled from the spec: `flnSetHeader` — write btype FREE, size and next. -/
def flnSetHeader (node : BNode) (size next : Nat) : BNode :=
  ⟨writeU64 (writeU16 (writeU16 node.Data 0 BNODE_FREE_LIST) 2 size) 4 next⟩

/-- Modelled from the spec: `flnSetptr` — store a pointer at slot idx. -/
def flnSetptr (node : BNode) (idx ptr : Nat) : BNode :=
  ⟨writeU64 node.Data (20 + 8 * idx) ptr⟩

/-- The `FreeList` struct: head pointer plus the page-read callback. -/
structure FreeList where
  head : Nat
  get : Nat → BNode

/-- Modelled from the spec: `Total` — `head.total` (u64 at offset 12 of
the head page), or 0 when the list is empty. -/
def FreeList.Total (fl : FreeList) : Nat :=
  if fl.head = 0 then 0 else readU64 (fl.get fl.head).Data 12

/-- Result of a free-list operation: a value, an `utils.Assert` panic, or
fuel exhaustion of the model. -/
inductive GetnRes where
  | ok (p : Nat)
  | assertFail
  | fuelOut
deriving DecidableEq

/-- The walk loop of `Getn`.  NOTE: the source assigns
`topn = flnSize(node)` (not `topn -= flnSize(node)`) before moving to the
next page; the embedding reproduces this. -/
def flGetnLoop (get : Nat → BNode) : Nat → BNode → Nat → GetnRes
  | 0, _, _ => .fuelOut
  | fuel + 1, node, topn =>
    if flnSize node ≤ topn then
      let topn2 := flnSize node
      let next := flnNext node
      if next = 0 then .assertFail else flGetnLoop get fuel (get next) topn2
    else .ok (flnPtr node (flnSize node - topn - 1))

/-- `(fl *FreeList) Getn(topn)` with its entry assertion
`0 <= topn && topn < fl.Total()`. -/
def FreeList.Getn (fl : FreeList) (topn fuel : Nat) : GetnRes :=
  if ¬ (topn < fl.Total) then .assertFail
  else flGetnLoop fl.get fuel (fl.get fl.head) topn

/-- State of the pop phase of `Update`. -/
structure PopSt where
  head : Nat
  popn : Nat
  total : Int
  freed : List Nat
  reuse : List Nat
deriving DecidableEq

/-- The inner loop of `Update`: move entries of the current node into
`reuse` while `remain > 0 && len(reuse)*FREE_LIST_CAP < len(freed)+remain`.
Returns the final `remain` and `reuse`. -/
def reuseLoop (node : BNode) (freedLen : Nat) : Nat → List Nat → Nat × List Nat
  | 0, reuse => (0, reuse)
  | r + 1, reuse =>
    if reuse.length * FREE_LIST_CAP < freedLen + (r + 1) then
      reuseLoop node freedLen r (reuse ++ [flnPtr node r])
    else (r + 1, reuse)

/-- The outer pop loop of `Update`, running while
`fl.head != 0 && len(reuse)*FREE_LIST_CAP < len(freed)`.
`none` models fuel exhaustion. -/
def popLoop (fl : FreeList) : Nat → PopSt → Option PopSt
  | 0, st =>
    if st.head ≠ 0 ∧ st.reuse.length * FREE_LIST_CAP < st.freed.length then none
    else some st
  | fuel + 1, st =>
    if st.head ≠ 0 ∧ st.reuse.length * FREE_LIST_CAP < st.freed.length then
      let node := fl.get st.head
      let freed1 := st.freed ++ [st.head]
      if flnSize node ≤ st.popn then
        popLoop fl fuel ⟨flnNext node, st.popn - flnSize node,
          st.total - flnSize node, freed1, st.reuse⟩
      else
        let rr := reuseLoop node freed1.length (flnSize node - st.popn) st.reuse
        let freed2 := freed1 ++ (List.range rr.1).map (fun i => flnPtr node i)
        popLoop fl fuel ⟨flnNext node, 0, st.total - flnSize node, freed2, rr.2⟩
    else some st

/-- State of the push phase (`flpush`): current head, remaining freed
pointers, remaining reuse pointers, and the logs of `Use`/`New` callback
invocations (`base + len(newLog)` is the pointer the next `New` returns). -/
structure PushSt where
  head : Nat
  freed : List Nat
  reuse : List Nat
  base : Nat
  useLog : List (Nat × BNode)
  newLog : List BNode
deriving DecidableEq

/-- Build one FREE page of `flpush`: header (size, next = current head)
then the pointers. -/
def flnBuild (size next : Nat) (ptrs : List Nat) : BNode :=
  (List.enum ptrs).foldl (fun n pi => flnSetptr n pi.1 pi.2)
    (flnSetHeader ⟨List.replicate BTREE_PAGE_SIZE 0⟩ size next)

/-- The loop of `flpush`.  `none` models fuel exhaustion. -/
def flpushLoop : Nat → PushSt → Option PushSt
  | 0, st => if st.freed = [] then some st else none
  | fuel + 1, st =>
    if st.freed = [] then some st
    else
      let size := min st.freed.length FREE_LIST_CAP
      let node := flnBuild size st.head (st.freed.take size)
      let freed1 := st.freed.drop size
      match st.reuse with
      | p :: rest =>
        flpushLoop fuel ⟨p, freed1, rest, st.base, st.useLog ++ [(p, node)], st.newLog⟩
      | [] =>
        flpushLoop fuel ⟨st.base + st.newLog.length, freed1, [], st.base,
          st.useLog, st.newLog ++ [node]⟩

/-- Result of `Update`/`flpush`. -/
inductive FLRes where
  | ok (st : PushSt)
  | assertFail
  | fuelOut
deriving DecidableEq

/-- `flpush` with its final assertion `len(reuse) == 0`. -/
def flpush (fuel : Nat) (st : PushSt) : FLRes :=
  match flpushLoop fuel st with
  | none => .fuelOut
  | some st1 => if st1.reuse = [] then .ok st1 else .assertFail

/-- `(fl *FreeList) Update(popn, freed)`: entry assertion
`popn <= fl.Total()`, early return, pop loop, the mid assertion
`len(reuse)*FREE_LIST_CAP >= len(freed) || fl.head == 0`, then `flpush`.
The final `flnSetTotal` write into the head page is an in-place page write
that the returned value does not need to expose. -/
def FreeList.Update (fl : FreeList) (base popn : Nat) (freed : List Nat)
    (fuel : Nat) : FLRes :=
  if ¬ (popn ≤ fl.Total) then .assertFail
  else if popn = 0 ∧ freed = [] then .ok ⟨fl.head, [], [], base, [], []⟩
  else
    match popLoop fl fuel ⟨fl.head, popn, (fl.Total : Int), freed, []⟩ with
    | none => .fuelOut
    | some st =>
      if ¬ (st.freed.length ≤ st.reuse.length * FREE_LIST_CAP ∨ st.head = 0) then .assertFail
      else flpush fuel ⟨st.head, st.freed, st.reuse, base, [], []⟩

/-! ## Concrete fixtures used by the claim theorems -/

/-- A fresh all-zero page. -/
def emptyPage : BNode := ⟨List.replicate BTREE_PAGE_SIZE 0⟩

/-- The root leaf that `Insert` builds on an empty tree for key "a" (97)
and value "1" (49): sentinel entry at 0, user entry at 1. -/
def leaf0 : BNode :=
  nodeAppendKV (nodeAppendKV (emptyPage.setHeader BNODE_LEAF 2) 0 0 [] []) 1 0 [97] [49]

/-- Callback environment for the C2 counterexample: the tree root (ptr 1)
is `leaf0`; `New` allocates from ptr 2 on. -/
def cb2 : CB := ⟨fun p => if p = 1 then leaf0 else emptyPage, 2⟩

/-- Callback environment for the C10 theorems: root (ptr 1) is `leaf0`;
`New` would allocate from ptr 5 on. -/
def cb10 : CB := ⟨fun p => if p = 1 then leaf0 else emptyPage, 5⟩

/-- A stored child leaf (ptr 10) with one entry: klen 1, vlen 0, key byte 5. -/
def page10 : BNode :=
  ⟨[2, 0, 1, 0] ++ List.replicate 8 0 ++ [5, 0] ++ [1, 0, 0, 0, 5]⟩

/-- A well-formed internal node with three children 10, 11, 12 and entries
(klen 1, vlen 0) with key bytes 5, 6, 7. -/
def oldInternal : BNode :=
  ⟨[1, 0, 3, 0] ++
    ([10] ++ List.replicate 7 0) ++ ([11] ++ List.replicate 7 0) ++ ([12] ++ List.replicate 7 0) ++
    [5, 0, 10, 0, 15, 0] ++
    [1, 0, 0, 0, 5] ++ [1, 0, 0, 0, 6] ++ [1, 0, 0, 0, 7]⟩

/-- An updated version of child 2, as a one-entry leaf. -/
def updLeaf : BNode :=
  ⟨[2, 0, 1, 0] ++ List.replicate 8 0 ++ [5, 0] ++ [1, 0, 0, 0, 6]⟩

/-- Callback environment for the C4 counterexample. -/
def cb4 : CB := ⟨fun p => if p = 10 then page10 else emptyPage, 100⟩

/-- A node for the C3 witness: three entries with klen 4 and vlen 0 whose
as-read keys `[0,0,0,k]` are strictly increasing for indices 1 and 2. -/
def node3 : BNode :=
  ⟨[2, 0, 3, 0] ++ List.replicate 24 0 ++
    [8, 0, 16, 0, 24, 0] ++
    [4, 0, 0, 0, 0, 0, 0, 0] ++ [4, 0, 0, 0, 30, 0, 0, 0] ++ [4, 0, 0, 0, 40, 0, 0, 0]⟩

/-- Free-list fixture for C6: head page (ptr 80) holds 1 pointer and links
to ptr 81 which holds 1 pointer and ends the chain; `total` = 2. -/
def pageA : BNode :=
  ⟨[3, 0, 1, 0] ++ ([81] ++ List.replicate 7 0) ++ ([2] ++ List.replicate 7 0) ++
    ([111] ++ List.replicate 7 0)⟩

def pageB : BNode :=
  ⟨[3, 0, 1, 0] ++ List.replicate 8 0 ++ List.replicate 8 0 ++
    ([222] ++ List.replicate 7 0)⟩

def fl6 : FreeList := ⟨80, fun p => if p = 80 then pageA else if p = 81 then pageB else emptyPage⟩

/-- Free-list fixture for C7: a single head page (ptr 90) holding 2
pointers 201, 202, `next` = 0, `total` = 2. -/
def page90 : BNode :=
  ⟨[3, 0, 2, 0] ++ List.replicate 8 0 ++ ([2] ++ List.replicate 7 0) ++
    ([201] ++ List.replicate 7 0) ++ ([202] ++ List.replicate 7 0)⟩

def fl7 : FreeList := ⟨90, fun p => if p = 90 then page90 else emptyPage⟩

/-- 508 freed pointers handed to `Update` in the C7 counterexample. -/
def freed508 : List Nat := (List.range 508).map (fun i => 1000 + i)

/-- A syntactically valid master page image: the 16-byte magic, root 1,
used 2, in a 2-page file. -/
def goodMaster : Bytes :=
  specMagic16 ++ ([1] ++ List.replicate 7 0) ++ ([2] ++ List.replicate 7 0)

/-! ## Claim theorems -/

/-- C2 (counterexample): inserting a key that is already present does NOT
replace the entry — both branches of the leaf case call `leafInsert`, so
the key count grows.  Starting from the root leaf `{"": "", "a": "1"}`
(ptr 1), `Insert("a", "1")` — the same key and value a second time —
allocates a single new root leaf with 3 keys instead of 2, so
`set(k,v); set(k,v)` does not leave the tree identical to `set(k,v)`. -/
theorem C2_insert_existing_key_grows_leaf :
    leaf0.nkeys = 2 ∧
    (BTreeInsert cb2 1 1 [97] [49]).map (fun r => r.2.newLog.map BNode.nkeys) = some [3] := by
  decide

/-- C4 (counterexample at the cited code): `nodeReplaceKidN` breaks the
`key(n, i) == first_key(child(n, i))` correspondence for the children it
copies with `nodeAppendRange`, because the pointer-copy loop writes
`old.GetPtr(srcOld+1)` into slot `dstNew+1` on every iteration instead of
copying slot by slot.  On a well-formed 3-child internal node (children
10, 11, 12) whose entry 0 satisfies the invariant, replacing the kid at
index 2 yields a node whose entry 0 keeps its key but whose child pointer
0 is 0 (never written), so the invariant fails at index 0. -/
theorem C4_nodeReplaceKidN_breaks_key_child_invariant :
    oldInternal.GetPtr 0 = 10 ∧
    oldInternal.GetKey 0 = (cb4.get (oldInternal.GetPtr 0)).GetKey 0 ∧
    (nodeReplaceKidN cb4 initCB emptyPage oldInternal 2 [updLeaf]).1.GetPtr 0 = 0 ∧
    ¬ ((nodeReplaceKidN cb4 initCB emptyPage oldInternal 2 [updLeaf]).1.GetKey 0 =
        (cb4.get ((nodeReplaceKidN cb4 initCB emptyPage oldInternal 2 [updLeaf]).1.GetPtr 0)).GetKey 0) := by
  decide

/-- C6 (counterexample): `Getn` assigns `topn = flnSize(node)` instead of
subtracting the consumed count, so walking into a successor page loses the
index.  On a two-page list with sizes 1 and 1 (total 2), `Getn(1)` — whose
precondition `0 ≤ 1 < Total()` holds — never returns a pointer: with
enough fuel the walk reaches the end of the chain and the
`utils.Assert(next != 0)` panics. -/
theorem C6_getn_walk_hits_assert :
    fl6.Total = 2 ∧
    fl6.Getn 1 0 = .fuelOut ∧ fl6.Getn 1 1 = .fuelOut ∧
    ∀ fuel, fl6.Getn 1 (fuel + 2) = .assertFail := by
  refine ⟨by decide, by decide, by decide, fun fuel => rfl⟩

/-- C7 (counterexample): the push phase does NOT always consume the whole
`reuse` list.  On a free list holding one head page with 2 pointers
(total 2), `Update(popn = 0, freed)` with 508 freed pointers is a legal
call (`0 ≤ popn ≤ Total()`), yet the pop phase moves both stored pointers
into `reuse` (the capacity check `len(reuse)*FREE_LIST_CAP <
len(freed)+remain` compares 509 < 510 and over-collects), `flpush` then
builds exactly one page of 509 pointers consuming only one reuse pointer,
and the final `utils.Assert(len(reuse) == 0)` fails. -/
theorem C7_update_flpush_assert_fails :
    fl7.Total = 2 ∧ FreeList.Update fl7 500 0 freed508 5 = .assertFail := by
  decide

/-- Helper: the page-copy section of a commit trace contains no fsync. -/
theorem count_fsync_copyPages (f : Nat → Nat) (l : List Nat) :
    (l.map (fun i => PagerEv.copyPage (f i))).count PagerEv.fsync = 0 := by
  induction l with
  | nil => rfl
  | cons a t ih => simp [List.count_cons, ih]

/-- Helper: the page-copy section contains no mmap extension either. -/
theorem extendMmap_notin_copyPages (f : Nat → Nat) (l : List Nat) (n : Nat) :
    PagerEv.extendMmapTo n ∉ l.map (fun i => PagerEv.copyPage (f i)) := by
  simp

/-- C1 (divergence): the commit path of the source performs exactly one
fsync and never extends the mmap, whereas the specified commit sequence
contains an mmap-extension step and two fsyncs (one after the master
write); moreover `flushed` is advanced *before* the master write.  Hence
for every pager state the emitted event trace differs from the specified
one. -/
theorem C1_flushPages_diverges_from_spec_commit (s : PagerState) :
    (flushPages s).2.count PagerEv.fsync = 1 ∧
    (∀ n, PagerEv.extendMmapTo n ∉ (flushPages s).2) ∧
    (flushPages s).2 =
      PagerEv.extendFileTo (s.flushed + s.tempLen) ::
        (List.range s.tempLen).map (fun i => PagerEv.copyPage (s.flushed + i)) ++
        [PagerEv.fsync, PagerEv.advanceFlushed,
         PagerEv.masterWrite s.root (s.flushed + s.tempLen)] ∧
    (specCommitEvents s).count PagerEv.fsync = 2 ∧
    PagerEv.extendMmapTo (s.flushed + s.tempLen) ∈ specCommitEvents s ∧
    (flushPages s).2 ≠ specCommitEvents s := by
  have h1 : (flushPages s).2.count PagerEv.fsync = 1 := by
    simp [flushPages, writePages, syncPages, List.count_cons, List.count_append,
      count_fsync_copyPages]
  have h4 : (specCommitEvents s).count PagerEv.fsync = 2 := by
    simp [specCommitEvents, List.count_cons, List.count_append, count_fsync_copyPages]
  refine ⟨h1, ?_, ?_, h4, ?_, ?_⟩
  · intro n
    simp [flushPages, writePages, syncPages]
  · simp [flushPages, writePages, syncPages]
  · simp [specCommitEvents]
  · intro h
    rw [h, h4] at h1
    exact absurd h1 (by decide)

/-- C8 (counterexample): for every file whose size is a multiple of the
page size and at most 64 MiB — in particular every freshly created or
small database file — `mmapInt` trips `utils.Assert(mmapSize < fi.Size())`
(the comparison is inverted: it demands the 64 MiB initial mmap be
*smaller* than the file), so the open path never completes. -/
theorem C8_mmapInt_asserts_on_small_files (fs : Nat)
    (h1 : fs % BTREE_PAGE_SIZE = 0) (h2 : fs ≤ 64 * 1024 * 1024) :
    mmapInt fs = none := by
  have hlt : ¬ (64 * 1024 * 1024 < fs) := by omega
  simp [mmapInt, h1, hlt]

/-- Witness for C8 at a one-page file (4096 bytes). -/
theorem C8_mmapInt_asserts_on_small_files_witness :
    4096 % BTREE_PAGE_SIZE = 0 ∧ 4096 ≤ 64 * 1024 * 1024 ∧ mmapInt 4096 = none :=
  ⟨by decide, by decide, C8_mmapInt_asserts_on_small_files 4096 (by decide) (by decide)⟩

/-- C9 (counterexample): `masterLoad` rejects EVERY non-empty file.
`bytes.Equal([]byte(DB_SIG), data[:16])` compares the 6-byte constant
"BANKAI" with a 16-byte slice, which can never be equal, so the signature
check always fails — even on a master page whose first 16 bytes are
exactly the 16-byte magic the specification describes. -/
theorem C9_masterLoad_always_rejects (file : Nat) (data : Bytes)
    (h1 : file ≠ 0) (h2 : 16 ≤ data.length) :
    masterLoad file data = none := by
  have hne : ¬ (DB_SIG = data.take 16) := by
    intro h
    have hlen := congrArg List.length h
    rw [List.length_take] at hlen
    simp [DB_SIG] at hlen
    omega
  simp [masterLoad, h1, hne]

/-- Witness for C9: a master page carrying the specified 16-byte magic,
root 1 and used count 2 in a 2-page file — valid by the claim — is still
rejected. -/
theorem C9_masterLoad_always_rejects_witness :
    (8192 : Nat) ≠ 0 ∧ 16 ≤ goodMaster.length ∧
    goodMaster.take 16 = specMagic16 ∧
    readU64 goodMaster 16 = 1 ∧ readU64 goodMaster 24 = 2 ∧
    masterLoad 8192 goodMaster = none :=
  ⟨by decide, by decide, by decide, by decide, by decide,
    C9_masterLoad_always_rejects 8192 goodMaster (by decide) (by decide)⟩

/-- Arithmetic of the `merged` size computation: for realistic node sizes
the Go uint16 expression `sib.nbytes + upd.nbytes - HEADER` equals the
plain natural-number value. -/
theorem merged_arith (a b : Nat) (ha : a ≤ BTREE_PAGE_SIZE) (hb : b ≤ BTREE_PAGE_SIZE)
    (hb4 : 4 ≤ b) : goSub16 (goAdd16 a b) HEADER = a + b - HEADER := by
  simp only [goSub16, goAdd16, HEADER, BTREE_PAGE_SIZE] at *
  omega

/-- C5: characterization of `shouldMerge`.  Under the structural bounds
that any on-page node satisfies (`4 ≤ nbytes ≤ 4096`), the updated child
is considered for merging exactly when its encoded size is ≤ 1024 bytes;
the left sibling is chosen iff `idx > 0` and
`left.nbytes + updated.nbytes - HEADER ≤ 4096`; otherwise the right
sibling is chosen under the same bound iff it exists; otherwise no merge. -/
theorem C5_shouldMerge_characterization (get : Nat → BNode) (node : BNode) (idx : Nat)
    (updated : BNode)
    (hU : updated.nbytes ≤ BTREE_PAGE_SIZE)
    (hU4 : 4 ≤ updated.nbytes)
    (hL : (get (node.GetPtr (idx - 1))).nbytes ≤ BTREE_PAGE_SIZE)
    (hR : (get (node.GetPtr (idx + 1))).nbytes ≤ BTREE_PAGE_SIZE) :
    ((shouldMerge get node idx updated).1 = -1 ↔
      updated.nbytes ≤ 1024 ∧ 0 < idx ∧
        (get (node.GetPtr (idx - 1))).nbytes + updated.nbytes - HEADER ≤ BTREE_PAGE_SIZE) ∧
    ((shouldMerge get node idx updated).1 = 1 ↔
      updated.nbytes ≤ 1024 ∧
        ¬ (0 < idx ∧
          (get (node.GetPtr (idx - 1))).nbytes + updated.nbytes - HEADER ≤ BTREE_PAGE_SIZE) ∧
        idx + 1 < node.nkeys ∧
        (get (node.GetPtr (idx + 1))).nbytes + updated.nbytes - HEADER ≤ BTREE_PAGE_SIZE) ∧
    (1024 < updated.nbytes → shouldMerge get node idx updated = (0, ⟨[]⟩)) ∧
    ((shouldMerge get node idx updated).1 = -1 →
      (shouldMerge get node idx updated).2 = get (node.GetPtr (idx - 1))) ∧
    ((shouldMerge get node idx updated).1 = 1 →
      (shouldMerge get node idx updated).2 = get (node.GetPtr (idx + 1))) := by
  have hq : BTREE_PAGE_SIZE / 4 = 1024 := by decide
  unfold shouldMerge
  rw [hq, merged_arith _ _ hL hU hU4, merged_arith _ _ hR hU hU4]
  split_ifs with h1 h2 h3
  · exact ⟨iff_of_false (by decide) (fun h => by omega),
      iff_of_false (by decide) (fun h => by omega),
      fun _ => rfl, fun h => absurd h (by decide), fun h => absurd h (by decide)⟩
  · exact ⟨iff_of_true rfl ⟨by omega, h2.1, h2.2⟩,
      iff_of_false (by simp) (fun h => h.2.1 h2),
      fun h => absurd h h1, fun _ => rfl, fun h => absurd h (by simp)⟩
  · exact ⟨iff_of_false (by simp) (fun h => h2 ⟨h.2.1, h.2.2⟩),
      iff_of_true rfl ⟨by omega, h2, h3.1, h3.2⟩,
      fun h => absurd h h1, fun h => absurd h (by simp), fun _ => rfl⟩
  · exact ⟨iff_of_false (by decide) (fun h => h2 ⟨h.2.1, h.2.2⟩),
      iff_of_false (by decide) (fun h => h3 ⟨h.2.2.1, h.2.2.2⟩),
      fun _ => rfl, fun h => absurd h (by decide), fun h => absurd h (by decide)⟩

/-- Page store for the C5 witness. -/
def getC5 : Nat → BNode := fun p => if p = 10 then leaf0 else emptyPage

/-- Witness for C5: deleting through `oldInternal` at child index 1 with
`leaf0` (34 bytes) as the updated child; the left sibling (ptr 10, also
34 bytes) is chosen since 34 + 34 - 4 ≤ 4096. -/
theorem C5_shouldMerge_characterization_witness :
    leaf0.nbytes ≤ BTREE_PAGE_SIZE ∧ 4 ≤ leaf0.nbytes ∧
    (getC5 (oldInternal.GetPtr (1 - 1))).nbytes ≤ BTREE_PAGE_SIZE ∧
    (getC5 (oldInternal.GetPtr (1 + 1))).nbytes ≤ BTREE_PAGE_SIZE ∧
    (shouldMerge getC5 oldInternal 1 leaf0).1 = -1 ∧
    (((shouldMerge getC5 oldInternal 1 leaf0).1 = -1 ↔
      leaf0.nbytes ≤ 1024 ∧ 0 < 1 ∧
        (getC5 (oldInternal.GetPtr (1 - 1))).nbytes + leaf0.nbytes - HEADER ≤ BTREE_PAGE_SIZE) ∧
    ((shouldMerge getC5 oldInternal 1 leaf0).1 = 1 ↔
      leaf0.nbytes ≤ 1024 ∧
        ¬ (0 < 1 ∧
          (getC5 (oldInternal.GetPtr (1 - 1))).nbytes + leaf0.nbytes - HEADER ≤ BTREE_PAGE_SIZE) ∧
        1 + 1 < oldInternal.nkeys ∧
        (getC5 (oldInternal.GetPtr (1 + 1))).nbytes + leaf0.nbytes - HEADER ≤ BTREE_PAGE_SIZE) ∧
    (1024 < leaf0.nbytes → shouldMerge getC5 oldInternal 1 leaf0 = (0, ⟨[]⟩)) ∧
    ((shouldMerge getC5 oldInternal 1 leaf0).1 = -1 →
      (shouldMerge getC5 oldInternal 1 leaf0).2 = getC5 (oldInternal.GetPtr (1 - 1))) ∧
    ((shouldMerge getC5 oldInternal 1 leaf0).1 = 1 →
      (shouldMerge getC5 oldInternal 1 leaf0).2 = getC5 (oldInternal.GetPtr (1 + 1)))) :=
  ⟨by decide, by decide, by decide, by decide, by decide,
    C5_shouldMerge_characterization getC5 oldInternal 1 leaf0
      (by decide) (by decide) (by decide) (by decide)⟩

/-- `bytes.Compare` returns 0 only on equal byte strings. -/
theorem bytesCompare_eq_zero : ∀ {a b : Bytes}, bytesCompare a b = 0 → a = b := by
  intro a
  induction a with
  | nil =>
    intro b h
    cases b with
    | nil => rfl
    | cons y ys => simp [bytesCompare] at h
  | cons x xs ih =>
    intro b h
    cases b with
    | nil => simp [bytesCompare] at h
    | cons y ys =>
      simp only [bytesCompare] at h
      rcases Nat.lt_trichotomy x y with h1 | h1 | h1
      · rw [if_pos h1] at h; exact absurd h (by decide)
      · subst h1
        rw [if_neg (by omega), if_neg (by omega)] at h
        rw [ih h]
      · rw [if_neg (by omega), if_pos h1] at h; exact absurd h (by decide)

/-- `bytes.Compare` is antisymmetric: swapping the arguments negates it. -/
theorem bytesCompare_swap : ∀ (a b : Bytes), bytesCompare b a = -bytesCompare a b := by
  intro a
  induction a with
  | nil =>
    intro b
    cases b <;> simp [bytesCompare]
  | cons x xs ih =>
    intro b
    cases b with
    | nil => simp [bytesCompare]
    | cons y ys =>
      simp only [bytesCompare]
      rcases Nat.lt_trichotomy x y with h | h | h
      · rw [if_neg (by omega), if_pos h, if_pos h]; decide
      · subst h
        rw [if_neg (by omega), if_neg (by omega), if_neg (by omega), if_neg (by omega)]
        exact ih ys
      · rw [if_pos h, if_neg (by omega), if_pos h]

/-- Strict `bytes.Compare` order is transitive. -/
theorem bytesCompare_lt_trans : ∀ {a b c : Bytes},
    bytesCompare a b < 0 → bytesCompare b c < 0 → bytesCompare a c < 0 := by
  intro a
  induction a with
  | nil =>
    intro b c h1 h2
    cases b with
    | nil => simpa [bytesCompare] using h2
    | cons y ys =>
      cases c with
      | nil => simp [bytesCompare] at h2
      | cons z zs => simp [bytesCompare]
  | cons x xs ih =>
    intro b c h1 h2
    cases b with
    | nil => simp [bytesCompare] at h1
    | cons y ys =>
      cases c with
      | nil => simp [bytesCompare] at h2
      | cons z zs =>
        simp only [bytesCompare] at h1 h2 ⊢
        rcases Nat.lt_trichotomy x y with hxy | hxy | hxy
        · rcases Nat.lt_trichotomy y z with hyz | hyz | hyz
          · rw [if_pos (by omega)]; decide
          · subst hyz; rw [if_pos hxy]; decide
          · rw [if_neg (by omega), if_pos hyz] at h2; exact absurd h2 (by decide)
        · subst hxy
          rcases Nat.lt_trichotomy x z with hyz | hyz | hyz
          · rw [if_pos hyz]; decide
          · subst hyz
            rw [if_neg (by omega), if_neg (by omega)] at h1 h2 ⊢
            exact ih h1 h2
          · rw [if_neg (by omega), if_pos hyz] at h2; exact absurd h2 (by decide)
        · rw [if_neg (by omega), if_pos hxy] at h1; exact absurd h1 (by decide)

/-- Loop invariant of `noDelookupLE`: starting iteration `i` with
`found = i - 1` and every scanned key strictly below the target, the loop
returns the greatest qualifying index. -/
theorem lookupGo_correct (node : BNode) (key : Bytes)
    (hsort : ∀ i j, 1 ≤ i → i < j → j < node.nkeys →
      bytesCompare (node.GetKey i) (node.GetKey j) < 0) :
    ∀ fuel i, 1 ≤ i → i ≤ node.nkeys → i + fuel = node.nkeys + 1 →
    (∀ j, 1 ≤ j → j < i → bytesCompare (node.GetKey j) key < 0) →
    ((∀ j, 1 ≤ j → j < node.nkeys → bytesCompare (node.GetKey j) key ≤ 0 →
        j ≤ lookupGo node key fuel i (i - 1)) ∧
     (lookupGo node key fuel i (i - 1) ≠ 0 →
        1 ≤ lookupGo node key fuel i (i - 1) ∧
        lookupGo node key fuel i (i - 1) < node.nkeys ∧
        bytesCompare (node.GetKey (lookupGo node key fuel i (i - 1))) key ≤ 0)) := by
  intro fuel
  induction fuel with
  | zero => intro i _ h2 h3 _; omega
  | succ fuel ih =>
    intro i h1 h2 h3 h4
    by_cases hlt : i < node.nkeys
    · rcases lt_trichotomy (bytesCompare (node.GetKey i) key) 0 with hc | hc | hc
      · -- key(i) < target: found becomes i, loop continues
        have hstep : lookupGo node key (fuel + 1) i (i - 1) =
            lookupGo node key fuel (i + 1) i := by
          simp [lookupGo, hlt, le_of_lt hc, not_le.mpr hc]
        have h4' : ∀ j, 1 ≤ j → j < i + 1 → bytesCompare (node.GetKey j) key < 0 := by
          intro j hj1 hj2
          rcases Nat.lt_or_ge j i with hji | hji
          · exact h4 j hj1 hji
          · have : j = i := by omega
            rw [this]; exact hc
        have := ih (i + 1) (by omega) (by omega) (by omega) h4'
        rw [hstep]
        simpa using this
      · -- key(i) = target: found becomes i and the loop breaks
        have hstep : lookupGo node key (fuel + 1) i (i - 1) = i := by
          simp [lookupGo, hlt, hc]
        rw [hstep]
        have hkey : node.GetKey i = key := bytesCompare_eq_zero hc
        refine ⟨?_, fun _ => ⟨h1, hlt, le_of_eq hc⟩⟩
        intro j hj1 hj2 hj3
        by_contra hgt
        push_neg at hgt
        have hs := hsort i j h1 hgt hj2
        rw [hkey] at hs
        have := bytesCompare_swap key (node.GetKey j)
        omega
      · -- key(i) > target: the loop breaks with found = i - 1
        have hstep : lookupGo node key (fuel + 1) i (i - 1) = i - 1 := by
          simp [lookupGo, hlt, not_le.mpr hc, le_of_lt hc]
        rw [hstep]
        constructor
        · intro j hj1 hj2 hj3
          rcases Nat.lt_or_ge j i with hji | hji
          · omega
          · exfalso
            rcases Nat.eq_or_lt_of_le hji with hji2 | hji2
            · rw [hji2] at hc; omega
            · have hs := hsort i j h1 hji2 hj2
              have hswap1 := bytesCompare_swap (node.GetKey i) key
              have htr := bytesCompare_lt_trans (show bytesCompare key (node.GetKey i) < 0 by omega) hs
              have hswap2 := bytesCompare_swap key (node.GetKey j)
              omega
        · intro hne
          have hi2 : 2 ≤ i := by omega
          exact ⟨by omega, by omega, le_of_lt (h4 (i - 1) (by omega) (by omega))⟩
    · -- i = nkeys: the loop is over, found = i - 1
      have hieq : i = node.nkeys := by omega
      have hstep : lookupGo node key (fuel + 1) i (i - 1) = i - 1 := by
        simp [lookupGo, hlt]
      rw [hstep]
      constructor
      · intro j hj1 hj2 _; omega
      · intro hne
        exact ⟨by omega, by omega, le_of_lt (h4 (i - 1) (by omega) (by omega))⟩

/-- C3: on a node whose keys at indices `1..nkeys-1` are strictly
increasing under unsigned byte comparison, `noDelookupLE` returns the
greatest index `i` with `1 ≤ i ≤ nkeys-1` and `key(i) ≤ target`, and 0
when no such index exists; an index whose key equals the target is
returned directly (the scan stops there). -/
theorem C3_noDelookupLE_greatest (node : BNode) (key : Bytes)
    (hsort : ∀ i j, 1 ≤ i → i < j → j < node.nkeys →
      bytesCompare (node.GetKey i) (node.GetKey j) < 0) :
    (∀ j, 1 ≤ j → j < node.nkeys → bytesCompare (node.GetKey j) key ≤ 0 →
      j ≤ noDelookupLE node key) ∧
    (noDelookupLE node key ≠ 0 →
      1 ≤ noDelookupLE node key ∧ noDelookupLE node key < node.nkeys ∧
      bytesCompare (node.GetKey (noDelookupLE node key)) key ≤ 0) ∧
    (∀ j, 1 ≤ j → j < node.nkeys → bytesCompare (node.GetKey j) key = 0 →
      noDelookupLE node key = j) := by
  rcases Nat.eq_zero_or_pos node.nkeys with h0 | h0
  · have hr : noDelookupLE node key = 0 := by
      unfold noDelookupLE
      rw [h0]
      rfl
    exact ⟨fun j _ hj2 _ => by omega, fun h => absurd hr h, fun j _ hj2 _ => by omega⟩
  · have main := lookupGo_correct node key hsort node.nkeys 1 (by omega) h0 (by omega)
      (fun j hj1 hj2 => by omega)
    have heq : lookupGo node key node.nkeys 1 (1 - 1) = noDelookupLE node key := rfl
    rw [heq] at main
    refine ⟨main.1, main.2, ?_⟩
    intro j hj1 hj2 hj3
    have hle := main.1 j hj1 hj2 (le_of_eq hj3)
    have hne : noDelookupLE node key ≠ 0 := by omega
    obtain ⟨hr1, hr2, hr3⟩ := main.2 hne
    rcases Nat.eq_or_lt_of_le hle with he | hlt2
    · omega
    · exfalso
      have hs := hsort j (noDelookupLE node key) hj1 hlt2 hr2
      have hkey : node.GetKey j = key := bytesCompare_eq_zero hj3
      rw [hkey] at hs
      have hsw := bytesCompare_swap key (node.GetKey (noDelookupLE node key))
      omega

/-- Witness for C3 at `node3` (strictly increasing keys `[0,0,0,30]`,
`[0,0,0,40]` at indices 1, 2) and target `[0,0,0,35]`: the returned index
is 1. -/
theorem C3_noDelookupLE_greatest_witness :
    (∀ i j, 1 ≤ i → i < j → j < node3.nkeys →
      bytesCompare (node3.GetKey i) (node3.GetKey j) < 0) ∧
    noDelookupLE node3 [0, 0, 0, 35] = 1 ∧
    ((∀ j, 1 ≤ j → j < node3.nkeys →
        bytesCompare (node3.GetKey j) [0, 0, 0, 35] ≤ 0 →
        j ≤ noDelookupLE node3 [0, 0, 0, 35]) ∧
     (noDelookupLE node3 [0, 0, 0, 35] ≠ 0 →
        1 ≤ noDelookupLE node3 [0, 0, 0, 35] ∧
        noDelookupLE node3 [0, 0, 0, 35] < node3.nkeys ∧
        bytesCompare (node3.GetKey (noDelookupLE node3 [0, 0, 0, 35])) [0, 0, 0, 35] ≤ 0) ∧
     (∀ j, 1 ≤ j → j < node3.nkeys →
        bytesCompare (node3.GetKey j) [0, 0, 0, 35] = 0 →
        noDelookupLE node3 [0, 0, 0, 35] = j)) := by
  have hs : ∀ i j, 1 ≤ i → i < j → j < node3.nkeys →
      bytesCompare (node3.GetKey i) (node3.GetKey j) < 0 := by
    intro i j h1 h2 h3
    have hn : node3.nkeys = 3 := by decide
    rw [hn] at h3
    have hij : i = 1 ∧ j = 2 := by omega
    rw [hij.1, hij.2]
    decide
  exact ⟨hs, by decide, C3_noDelookupLE_greatest node3 [0, 0, 0, 35] hs⟩

/-- If the descent shows the key is absent, `treeDelete` returns the empty
"not found" node and leaves the callback log untouched. -/
theorem treeDelete_notfound (cb : CB) :
    ∀ fuel (s : CBState) (node : BNode) (key : Bytes),
    hasKey cb fuel node key = some false →
    treeDelete cb fuel s node key = some (⟨[]⟩, s) := by
  intro fuel
  induction fuel with
  | zero => intro s node key h; simp [hasKey] at h
  | succ fuel ih =>
    intro s node key h
    simp only [hasKey] at h
    simp only [treeDelete]
    by_cases hleaf : node.btype = BNODE_LEAF
    · rw [if_pos hleaf] at h ⊢
      simp only [Option.some.injEq, decide_eq_false_iff_not] at h
      rw [if_neg h]
    · rw [if_neg hleaf] at h ⊢
      by_cases hnode : node.btype = BNODE_NODE
      · rw [if_pos hnode] at h ⊢
        unfold nodeDeleteF
        simp only [ih s (cb.get (node.GetPtr (noDelookupLE node key))) key h]
        simp
      · rw [if_neg hnode] at h
        exact absurd h (by simp)

/-- C10: deleting a valid key that is not in the tree (the empty-tree case
`Root = 0` included) returns `false`, leaves the root unchanged and
invokes neither the `New` nor the `Del` page callback (`initCB` is the
empty log). -/
theorem C10_delete_absent_key (cb : CB) (fuel root : Nat) (key : Bytes)
    (h1 : 1 ≤ key.length) (h2 : key.length ≤ BTREE_MAX_KEY_SIZE)
    (h3 : root = 0 ∨ hasKey cb fuel (cb.get root) key = some false) :
    BTreeDelete cb fuel root key = some (false, root, initCB) := by
  unfold BTreeDelete
  rw [if_neg (by omega), if_neg (not_lt.mpr h2)]
  by_cases hr : root = 0
  · rw [if_pos hr]
  · rw [if_neg hr]
    rcases h3 with h3 | h3
    · exact absurd h3 hr
    · rw [treeDelete_notfound cb fuel initCB (cb.get root) key h3]
      simp

/-- Witness for C10: the tree rooted at ptr 1 is `leaf0` (keys "" and "a");
deleting the absent key "b" (byte 98) returns `false`, keeps root 1 and
performs no `New`/`Del` call. -/
theorem C10_delete_absent_key_witness :
    1 ≤ ([98] : Bytes).length ∧ ([98] : Bytes).length ≤ BTREE_MAX_KEY_SIZE ∧
    hasKey cb10 1 (cb10.get 1) [98] = some false ∧
    BTreeDelete cb10 1 1 [98] = some (false, 1, initCB) :=
  ⟨by decide, by decide, by decide,
    C10_delete_absent_key cb10 1 1 [98] (by decide) (by decide) (Or.inr (by decide))⟩
